import Mathlib

/-!
# Verification of the person-detection video pipeline

A shallow embedding of `src/detector.py` (class `PersonDetector`) and
`src/video_processor.py` (class `VideoProcessor`), with theorems settling
the specification's claims about them.

Modelling conventions:
* Python floats are modelled as `ℚ`, Python ints as `ℤ` (counters as `ℕ`).
* Python's `int(x)` truncation toward zero is `pyInt`.
* Exceptions are modelled with explicit error values (`PyError`); a function
  that can raise returns its result together with the observable state at the
  moment of the raise.
* External library calls (the YOLO model, OpenCV drawing primitives, the
  wall clock, the decoded frame stream) are inputs, passed as raw data or as
  abstract function parameters; everything the repository's own code does with
  them is embedded concretely.
-/

set_option autoImplicit false

namespace PersonDetection

/-- Python's `int(x)` on a float truncates toward zero. -/
def pyInt (q : ℚ) : ℤ := if 0 ≤ q then ⌊q⌋ else ⌈q⌉

/-- One raw box produced by the YOLO model for a frame: float corner
coordinates `box.xyxy[0]`, float confidence `box.conf[0]`, int class
`box.cls[0]` (detector.py lines 80-82). -/
structure RawBox where
  x1 : ℚ
  y1 : ℚ
  x2 : ℚ
  y2 : ℚ
  conf : ℚ
  cls : ℤ
  deriving DecidableEq, Repr

/-- The dict appended by `detect_persons` (detector.py lines 86-91):
`bbox` as four `int(...)` coordinates, `confidence`, `class_name`, `class_id`. -/
structure Detection where
  x1 : ℤ
  y1 : ℤ
  x2 : ℤ
  y2 : ℤ
  confidence : ℚ
  class_name : String
  class_id : ℤ
  deriving DecidableEq, Repr

/-- Body of the inner `for box in boxes` loop of `detect_persons`
(detector.py lines 78-91): the validity check `x2 > x1 and y2 > y1` is made on
the raw float coordinates, and the stored bbox is their `int(...)` truncation. -/
def detectBox (b : RawBox) : Option Detection :=
  if b.x1 < b.x2 ∧ b.y1 < b.y2 then
    some ⟨pyInt b.x1, pyInt b.y1, pyInt b.x2, pyInt b.y2, b.conf, "person", b.cls⟩
  else
    none

/-- `detect_persons` (detector.py lines 51-93).  The model's output `results`
is a list of result objects; each yields `result.boxes`, which may be `None`
(modelled `none`) or a list of boxes.  Empty or `None` box lists are skipped
(`continue`); otherwise each valid box is appended to `detections`. -/
def detect_persons : List (Option (List RawBox)) → List Detection
  | [] => []
  | none :: rest => detect_persons rest
  | some boxes :: rest =>
      (if boxes.length = 0 then [] else boxes.filterMap detectBox) ++
        detect_persons rest

/-! ## Annotation (`draw_detections`, detector.py lines 95-168) -/

/-- The OpenCV drawing primitives used by `draw_detections`, and Python's
f-string label formatting, abstracted: `rectangle frame pt1 pt2 color
thickness`, `putText frame text org fontScale color thickness`,
`getTextSize text fontScale thickness = ((width, height), baseline)`,
`labelFmt class_name confidence` for `f"{class_name}: {confidence:.2f}"`.
They are opaque external collaborators; the pipeline code only sequences
them. -/
structure DrawApi (Frame : Type) where
  rectangle : Frame → ℤ × ℤ → ℤ × ℤ → ℤ × ℤ × ℤ → ℤ → Frame
  putText : Frame → String → ℤ × ℤ → ℚ → ℤ × ℤ × ℤ → ℤ → Frame
  getTextSize : String → ℚ → ℤ → (ℤ × ℤ) × ℤ
  labelFmt : String → ℚ → String

/-- Label vertical anchor (detector.py line 145):
`text_y = y1 - 10 if y1 - 10 > text_height else y1 + text_height + 10`. -/
def labelTextY (y1 th : ℤ) : ℤ :=
  if y1 - 10 > th then y1 - 10 else y1 + th + 10

/-- The per-detection body of the `for det in detections` loop of
`draw_detections` (detector.py lines 119-166): bbox rectangle, filled label
background, label text.  Every in-place OpenCV call targets the frame given
here (the code always passes `output_frame`). -/
def drawOne {Frame : Type} (api : DrawApi Frame) (lineThickness : ℤ)
    (fontScale : ℚ) (f : Frame) (det : Detection) : Frame :=
  let f1 := api.rectangle f (det.x1, det.y1) (det.x2, det.y2) (0, 255, 0) lineThickness
  let label := api.labelFmt det.class_name det.confidence
  let ts := api.getTextSize label fontScale lineThickness
  let tw := ts.1.1
  let th := ts.1.2
  let baseline := ts.2
  let ty := labelTextY det.y1 th
  let f2 := api.rectangle f1 (det.x1, ty - th - baseline)
      (det.x1 + tw + 4, ty + baseline) (0, 255, 0) (-1)
  api.putText f2 label (det.x1 + 2, ty - 2) fontScale (0, 0, 0) lineThickness

/-- The two pixel buffers live during `draw_detections`: the caller's `frame`
and `output_frame = frame.copy()`.  `numpy.copy` duplicates the pixel values
into a fresh buffer, so at creation both buffers hold the same pixels; the
fields track each buffer's contents separately so that mutation of one is
observable on the other. -/
structure Buffers (Frame : Type) where
  input : Frame
  output : Frame
  deriving DecidableEq, Repr

/-- `draw_detections` (detector.py lines 95-168): copy the frame, then fold
the drawing body over the detections.  The source passes `output_frame` to
every drawing call, so each step rewrites only the `output` buffer.  Returns
both buffers; the Python function's return value is the `output` component. -/
def draw_detections {Frame : Type} (api : DrawApi Frame) (frame : Frame)
    (detections : List Detection) (lineThickness : ℤ) (fontScale : ℚ) :
    Buffers Frame :=
  detections.foldl
    (fun b det => { b with output := drawOne api lineThickness fontScale b.output det })
    ⟨frame, frame⟩

/-! ## The video pipeline (`process_video`, video_processor.py lines 47-179) -/

/-- The Python exceptions `process_video` can raise: `ValueError` (decoder or
encoder fails to open, lines 63-66 and 89-92), `ZeroDivisionError` (the
duration print `total_frames/fps` at line 78, or the progress computation
`frame_count / total_frames` at line 145), and any exception escaping the
loop body (detection / annotation / writing), modelled as `frameError`. -/
inductive PyError where
  | valueError
  | zeroDivisionError
  | frameError
  deriving DecidableEq, Repr

/-- What the decoder-plus-detector pair does for one iteration: either the
frame is decoded and the body runs to completion, yielding the number of
detections `len(detections)` and the measured per-frame duration
`frame_time`, or an exception is raised inside the loop body. -/
inductive FrameOutcome where
  | ok (detCount : ℕ) (frameTime : ℚ)
  | raise
  deriving DecidableEq, Repr

def FrameOutcome.isOk : FrameOutcome → Bool
  | .ok _ _ => true
  | .raise => false

/-- One recorded invocation of the progress callback (lines 147-152):
`(progress, frame_count, total_frames, current_fps)`. -/
structure CallRec where
  percent : ℚ
  current : ℕ
  total : ℤ
  fps : ℚ
  deriving DecidableEq, Repr

/-- The loop-local mutable state of `process_video` (lines 95-97 and the
writes inside the loop): `frame_count`, `person_count_stats`,
`processing_times`, the number of frames written via `out.write`, and the
sequence of progress-callback invocations made so far. -/
structure LoopSt where
  frameCount : ℕ
  personCountStats : List ℕ
  processingTimes : List ℚ
  framesWritten : ℕ
  callbackCalls : List CallRec
  deriving DecidableEq, Repr

def initLoopSt : LoopSt := ⟨0, [], [], 0, []⟩

/-- Outcome of the `while True` loop: normal exhaustion with the final local
state, or an exception with the locals as they stood when it was raised. -/
inductive LoopOut where
  | done (st : LoopSt)
  | failed (e : PyError) (st : LoopSt)
  deriving DecidableEq, Repr

/-- `current_fps = 1.0 / frame_time if frame_time > 0 else 0` (line 146). -/
def instFps (t : ℚ) : ℚ := if 0 < t then 1 / t else 0

/-- The `while True` loop of `process_video` (lines 102-152), one recursive
step per decoded frame.  For an `ok` frame the body appends
`len(detections)` to `person_count_stats`, writes the annotated frame,
appends `frame_time`, increments `frame_count`, and — every 30th frame, if a
callback was supplied — computes `(frame_count / total_frames) * 100`
(raising `ZeroDivisionError` when `total_frames == 0`) and invokes the
callback.  A `raise` outcome aborts the loop with the exception. -/
def runLoop (cb : Bool) (tf : ℤ) : List FrameOutcome → LoopSt → LoopOut
  | [], st => .done st
  | .raise :: _, st => .failed .frameError st
  | .ok n t :: rest, st =>
      if cb ∧ (st.frameCount + 1) % 30 = 0 then
        if tf = 0 then
          .failed .zeroDivisionError
            ⟨st.frameCount + 1, st.personCountStats ++ [n],
              st.processingTimes ++ [t], st.framesWritten + 1, st.callbackCalls⟩
        else
          runLoop cb tf rest
            ⟨st.frameCount + 1, st.personCountStats ++ [n],
              st.processingTimes ++ [t], st.framesWritten + 1,
              st.callbackCalls ++
                [⟨((st.frameCount + 1 : ℕ) : ℚ) / (tf : ℚ) * 100,
                  st.frameCount + 1, tf, instFps t⟩]⟩
      else
        runLoop cb tf rest
          ⟨st.frameCount + 1, st.personCountStats ++ [n],
            st.processingTimes ++ [t], st.framesWritten + 1, st.callbackCalls⟩

/-- `max(person_count_stats) if person_count_stats else 0` (line 163). -/
def pyMaxNat : List ℕ → ℕ
  | [] => 0
  | h :: t => t.foldl max h

/-- `min(person_count_stats) if person_count_stats else 0` (line 164). -/
def pyMinNat : List ℕ → ℕ
  | [] => 0
  | h :: t => t.foldl min h

/-- The dict returned by `process_video` (lines 166-175). -/
structure Stats where
  total_frames : ℕ
  total_time : ℚ
  avg_fps : ℚ
  avg_persons : ℚ
  max_persons : ℕ
  min_persons : ℕ
  video_resolution : String
  output_path : String
  deriving DecidableEq, Repr

/-- The external inputs of one `process_video` call: whether the decoder
opened, the four metadata ints read at lines 69-72, whether the encoder
opened, the per-frame outcomes the decoder/detector produce, whether a
progress callback was supplied, `show_fps`, the wall-clock total
`time.time() - start_time` measured at line 159, and the output path. -/
structure RunInput where
  capOpened : Bool
  fps : ℤ
  width : ℤ
  height : ℤ
  totalFrames : ℤ
  outOpened : Bool
  frames : List FrameOutcome
  hasCallback : Bool
  showFps : Bool
  totalTime : ℚ
  outputPath : String
  deriving DecidableEq, Repr

/-- Everything observable about one `process_video` call: its return value
or exception, how many times each stream handle was released, whether the
encoder object was ever constructed (line 82), and the loop locals at the
moment the call ended. -/
structure ProcOut where
  result : Except PyError Stats
  capReleaseCount : ℕ
  outReleaseCount : ℕ
  encoderCreated : Bool
  loopSt : LoopSt
  deriving Repr

/-- `process_video` (video_processor.py lines 47-179).  In source order:
the `cap.isOpened()` check (raise, nothing released), the metadata reads and
the duration print `total_frames/fps` (raises `ZeroDivisionError` when
`fps == 0`, before the encoder is created), the `out.isOpened()` check
(raise, nothing released), the loop, then — only reached on normal loop
exhaustion — `cap.release()`, `out.release()` and the summary.  There is no
`try`/`finally`: an exception leaves both release counts at zero. -/
def process_video (inp : RunInput) : ProcOut :=
  if !inp.capOpened then
    ⟨.error .valueError, 0, 0, false, initLoopSt⟩
  else if inp.fps = 0 then
    ⟨.error .zeroDivisionError, 0, 0, false, initLoopSt⟩
  else if !inp.outOpened then
    ⟨.error .valueError, 0, 0, true, initLoopSt⟩
  else
    match runLoop inp.hasCallback inp.totalFrames inp.frames initLoopSt with
    | .failed e st => ⟨.error e, 0, 0, true, st⟩
    | .done st =>
        let stats := st.personCountStats
        let avg_fps : ℚ :=
          if 0 < inp.totalTime then (st.frameCount : ℚ) / inp.totalTime else 0
        let avg_persons : ℚ :=
          if stats = [] then 0 else ((stats.sum : ℕ) : ℚ) / ((stats.length : ℕ) : ℚ)
        ⟨.ok
          { total_frames := st.frameCount
            total_time := inp.totalTime
            avg_fps := avg_fps
            avg_persons := avg_persons
            max_persons := pyMaxNat stats
            min_persons := pyMinNat stats
            video_resolution := toString inp.width ++ "x" ++ toString inp.height
            output_path := inp.outputPath },
          1, 1, true, st⟩

/-! ## Helper definitions for the proofs -/

/-- The `(detCount, frameTime)` pairs of the outcomes that complete without
raising; on a successful run this is the whole frame sequence. -/
def okPairs : List FrameOutcome → List (ℕ × ℚ)
  | [] => []
  | .ok n t :: rest => (n, t) :: okPairs rest
  | .raise :: rest => okPairs rest

/-- Closed form of the progress-callback invocations `runLoop` makes on a
successful run: starting from frame counter `fc0`, one record per processed
frame whose counter is a multiple of 30. -/
def expCalls (tf : ℤ) : ℕ → List (ℕ × ℚ) → List CallRec
  | _, [] => []
  | fc0, (_, t) :: rest =>
      (if (fc0 + 1) % 30 = 0 then
        [⟨((fc0 + 1 : ℕ) : ℚ) / (tf : ℚ) * 100, fc0 + 1, tf, instFps t⟩]
      else []) ++ expCalls tf (fc0 + 1) rest

/-- Whether an `Except` result is a normal return. -/
def resultOk {ε α : Type} : Except ε α → Bool
  | .ok _ => true
  | .error _ => false

/-! ## Concrete inputs used by counterexamples and witnesses -/

/-- A run whose second frame raises inside the loop body. -/
def raisingRunInput : RunInput :=
  ⟨true, 30, 2, 2, 10, true, [.ok 1 1, .raise], false, true, 1, "out.mp4"⟩

/-- A two-frame run that completes normally (no callback supplied). -/
def sampleRunInput : RunInput :=
  ⟨true, 30, 2, 2, 10, true, [.ok 1 1, .ok 0 1], false, true, 0, "out.mp4"⟩

/-- The summary `process_video` returns for `sampleRunInput`. -/
def sampleOkStats : Stats := ⟨2, 0, 0, 1 / 2, 1, 0, "2x2", "out.mp4"⟩

/-- A 31-frame run with a progress callback and `total_frames = 60`. -/
def sampleCbInput : RunInput :=
  ⟨true, 30, 2, 2, 60, true,
    List.replicate 30 (.ok 1 (1 / 2)) ++ [.ok 2 0], true, true, 0, "out.mp4"⟩

/-- The summary `process_video` returns for `sampleCbInput`. -/
def sampleCbStats : Stats := ⟨31, 0, 0, 32 / 31, 2, 1, "2x2", "out.mp4"⟩

/-- A zero-frame run. -/
def emptyRunInput : RunInput :=
  ⟨true, 30, 2, 2, 0, true, [], false, true, 7, "out.mp4"⟩

/-- A run whose decoder reports `fps == 0`. -/
def zeroFpsInput : RunInput :=
  ⟨true, 0, 2, 2, 10, true, [.ok 1 1], false, true, 1, "out.mp4"⟩

/-- A 30-frame run with a callback whose metadata reports `total_frames = 0`. -/
def zeroTfInput : RunInput :=
  ⟨true, 25, 2, 2, 0, true, List.replicate 30 (.ok 0 1), true, true, 1, "out.mp4"⟩

/-- A model output whose raw box has fractional corners strictly inside one
pixel: valid as floats, degenerate after `int(...)` truncation. -/
def fracBoxResults : List (Option (List RawBox)) :=
  [some [⟨1 / 5, 0, 4 / 5, 1, 9 / 10, 0⟩]]

/-- A model output with an ordinary non-degenerate box. -/
def wideBoxResults : List (Option (List RawBox)) :=
  [some [⟨0, 0, 5 / 2, 3, 1 / 2, 0⟩]]

/-- The detection `detect_persons` produces for `wideBoxResults`. -/
def wideBoxDet : Detection := ⟨0, 0, 2, 3, 1 / 2, "person", 0⟩

/-- A concrete drawing API over `ℤ`-valued "frames" for witnesses. -/
def sampleApi : DrawApi ℤ where
  rectangle := fun f _ _ _ th => f + th
  putText := fun f _ _ _ _ _ => f + 100
  getTextSize := fun _ _ _ => ((12, 7), 1)
  labelFmt := fun s _ => s

/-- A concrete detection list for the annotation witness. -/
def sampleDets : List Detection :=
  [⟨1, 2, 9, 8, 3 / 4, "person", 0⟩, ⟨0, 40, 5, 60, 1 / 4, "person", 0⟩]

/-! ## Supporting lemmas -/

theorem pyInt_mono {q r : ℚ} (h : q ≤ r) : pyInt q ≤ pyInt r := by
  unfold pyInt
  split_ifs with hq hr hr
  · exact Int.floor_le_floor h
  · exact absurd (le_trans hq h) hr
  · calc ⌈q⌉ ≤ 0 := Int.ceil_le.mpr (by exact_mod_cast le_of_lt (lt_of_not_ge hq))
      _ ≤ ⌊r⌋ := Int.le_floor.mpr (by exact_mod_cast hr)
  · exact Int.ceil_le_ceil h

theorem le_foldl_max : ∀ (l : List ℕ) (b : ℕ), b ≤ l.foldl max b
  | [], b => le_refl b
  | h :: t, b => le_trans (le_max_left b h) (le_foldl_max t (max b h))

theorem mem_le_foldl_max : ∀ (l : List ℕ) (b x : ℕ), x ∈ l → x ≤ l.foldl max b := by
  intro l
  induction l with
  | nil => intro b x hx; cases hx
  | cons h t ih =>
    intro b x hx
    rcases List.mem_cons.mp hx with rfl | hx
    · exact le_trans (le_max_right b x) (le_foldl_max t (max b x))
    · exact ih (max b h) x hx

theorem foldl_min_le : ∀ (l : List ℕ) (b : ℕ), l.foldl min b ≤ b
  | [], b => le_refl b
  | h :: t, b => le_trans (foldl_min_le t (min b h)) (min_le_left b h)

theorem foldl_min_le_mem : ∀ (l : List ℕ) (b x : ℕ), x ∈ l → l.foldl min b ≤ x := by
  intro l
  induction l with
  | nil => intro b x hx; cases hx
  | cons h t ih =>
    intro b x hx
    rcases List.mem_cons.mp hx with rfl | hx
    · exact le_trans (foldl_min_le t (min b x)) (min_le_right b x)
    · exact ih (min b h) x hx

theorem mem_le_pyMaxNat {l : List ℕ} {x : ℕ} (hx : x ∈ l) : x ≤ pyMaxNat l := by
  cases l with
  | nil => cases hx
  | cons h t =>
    rcases List.mem_cons.mp hx with rfl | hx
    · exact le_foldl_max t x
    · exact mem_le_foldl_max t h x hx

theorem pyMinNat_le_mem {l : List ℕ} {x : ℕ} (hx : x ∈ l) : pyMinNat l ≤ x := by
  cases l with
  | nil => cases hx
  | cons h t =>
    rcases List.mem_cons.mp hx with rfl | hx
    · exact foldl_min_le t x
    · exact foldl_min_le_mem t h x hx

theorem sum_le_length_mul (l : List ℕ) (M : ℕ) (h : ∀ x ∈ l, x ≤ M) :
    l.sum ≤ l.length * M := by
  induction l with
  | nil => simp
  | cons a t ih =>
    simp only [List.sum_cons, List.length_cons]
    have ht := ih fun x hx => h x (List.mem_cons_of_mem a hx)
    have ha := h a (List.mem_cons_self a t)
    calc a + t.sum ≤ M + t.length * M := Nat.add_le_add ha ht
      _ = (t.length + 1) * M := by ring

theorem length_mul_le_sum (l : List ℕ) (m : ℕ) (h : ∀ x ∈ l, m ≤ x) :
    l.length * m ≤ l.sum := by
  induction l with
  | nil => simp
  | cons a t ih =>
    simp only [List.sum_cons, List.length_cons]
    have ht := ih fun x hx => h x (List.mem_cons_of_mem a hx)
    have ha := h a (List.mem_cons_self a t)
    calc (t.length + 1) * m = m + t.length * m := by ring
      _ ≤ a + t.sum := Nat.add_le_add ha ht

theorem map_snd_getD : ∀ (ts : List (ℕ × ℚ)) (i : ℕ),
    (ts.map Prod.snd).getD i 0 = (ts.getD i (0, 0)).2 := by
  intro ts
  induction ts with
  | nil => intro i; rfl
  | cons p rest ih =>
    intro i
    cases i with
    | zero => rfl
    | succ j => simpa using ih j

theorem draw_foldl_input {Frame : Type} (api : DrawApi Frame) (lt : ℤ) (fs : ℚ) :
    ∀ (dets : List Detection) (b : Buffers Frame),
      (dets.foldl (fun b det =>
        { b with output := drawOne api lt fs b.output det }) b).input = b.input := by
  intro dets
  induction dets with
  | nil => intro b; rfl
  | cons d rest ih => intro b; simpa using ih _

theorem runLoop_done_spec (cb : Bool) (tf : ℤ) :
    ∀ (outcomes : List FrameOutcome) (st st' : LoopSt),
      runLoop cb tf outcomes st = .done st' →
      st'.frameCount = st.frameCount + outcomes.length ∧
      st'.personCountStats = st.personCountStats ++ (okPairs outcomes).map Prod.fst ∧
      st'.processingTimes = st.processingTimes ++ (okPairs outcomes).map Prod.snd ∧
      st'.framesWritten = st.framesWritten + outcomes.length ∧
      st'.callbackCalls = st.callbackCalls ++
        (if cb then expCalls tf st.frameCount (okPairs outcomes) else []) ∧
      (okPairs outcomes).length = outcomes.length := by
  intro outcomes
  induction outcomes with
  | nil =>
    intro st st' h
    simp only [runLoop, LoopOut.done.injEq] at h
    subst h
    simp [okPairs, expCalls]
  | cons o rest ih =>
    intro st st' h
    cases o with
    | raise => simp [runLoop] at h
    | ok n t =>
      simp only [runLoop] at h
      by_cases hcb : cb = true ∧ (st.frameCount + 1) % 30 = 0
      · rw [if_pos hcb] at h
        by_cases htf : tf = 0
        · rw [if_pos htf] at h; cases h
        · rw [if_neg htf] at h
          obtain ⟨h1, h2, h3, h4, h5, h6⟩ := ih _ _ h
          refine ⟨?_, ?_, ?_, ?_, ?_, ?_⟩
          · simpa [Nat.add_assoc, Nat.add_comm 1] using h1
          · simp only [okPairs, List.map_cons]
            rw [h2]; simp
          · simp only [okPairs, List.map_cons]
            rw [h3]; simp
          · simpa [Nat.add_assoc, Nat.add_comm 1] using h4
          · rw [h5]
            simp only [hcb.1, if_true, okPairs, expCalls, hcb.2, List.append_assoc,
              List.singleton_append]
          · simp only [okPairs, List.length_cons, h6, List.length_cons]
      · rw [if_neg hcb] at h
        obtain ⟨h1, h2, h3, h4, h5, h6⟩ := ih _ _ h
        refine ⟨?_, ?_, ?_, ?_, ?_, ?_⟩
        · simpa [Nat.add_assoc, Nat.add_comm 1] using h1
        · simp only [okPairs, List.map_cons]
          rw [h2]; simp
        · simp only [okPairs, List.map_cons]
          rw [h3]; simp
        · simpa [Nat.add_assoc, Nat.add_comm 1] using h4
        · rw [h5]
          cases hb : cb with
          | false => simp
          | true =>
            have hmod : ¬ (st.frameCount + 1) % 30 = 0 := fun hm => hcb ⟨hb, hm⟩
            simp only [if_true, okPairs, expCalls, hmod, if_neg, List.nil_append]
            rfl
        · simp only [okPairs, List.length_cons, h6, List.length_cons]

theorem expCalls_length (tf : ℤ) :
    ∀ (ts : List (ℕ × ℚ)) (fc0 : ℕ),
      (expCalls tf fc0 ts).length = (fc0 + ts.length) / 30 - fc0 / 30 := by
  intro ts
  induction ts with
  | nil => intro fc0; simp [expCalls]
  | cons p rest ih =>
    intro fc0
    obtain ⟨n, t⟩ := p
    simp only [expCalls, List.length_append, List.length_cons]
    rw [ih (fc0 + 1)]
    by_cases h : (fc0 + 1) % 30 = 0
    · simp only [h, if_true, List.length_singleton]
      omega
    · simp only [h, if_false, List.length_nil]
      omega

theorem expCalls_current (tf : ℤ) :
    ∀ (ts : List (ℕ × ℚ)) (fc0 j : ℕ), j < (expCalls tf fc0 ts).length →
      ((expCalls tf fc0 ts).getD j ⟨0, 0, 0, 0⟩).current = 30 * (fc0 / 30 + j + 1) := by
  intro ts
  induction ts with
  | nil => intro fc0 j hj; simp [expCalls] at hj
  | cons p rest ih =>
    intro fc0 j hj
    obtain ⟨n, t⟩ := p
    by_cases h : (fc0 + 1) % 30 = 0
    · simp only [expCalls, h, if_true, List.singleton_append] at hj ⊢
      cases j with
      | zero =>
        simp only [List.getD_cons_zero]
        omega
      | succ k =>
        have hk : k < (expCalls tf (fc0 + 1) rest).length := by
          simpa using Nat.lt_of_succ_lt_succ hj
        have := ih (fc0 + 1) k hk
        simp only [List.getD_cons_succ]
        rw [this]
        omega
    · simp only [expCalls, h, if_false, List.nil_append] at hj ⊢
      have := ih (fc0 + 1) j hj
      rw [this]
      omega

theorem expCalls_mem (tf : ℤ) :
    ∀ (ts : List (ℕ × ℚ)) (fc0 : ℕ) (c : CallRec), c ∈ expCalls tf fc0 ts →
      c.total = tf ∧ c.percent = (c.current : ℚ) / (tf : ℚ) * 100 ∧
      fc0 < c.current ∧
      c.fps = instFps ((ts.getD (c.current - fc0 - 1) (0, 0)).2) := by
  intro ts
  induction ts with
  | nil => intro fc0 c hc; simp [expCalls] at hc
  | cons p rest ih =>
    intro fc0 c hc
    obtain ⟨n, t⟩ := p
    by_cases h : (fc0 + 1) % 30 = 0
    · simp only [expCalls, h, if_true, List.singleton_append, List.mem_cons] at hc
      rcases hc with rfl | hc
      · refine ⟨rfl, rfl, Nat.lt_succ_self _, ?_⟩
        simp
      · obtain ⟨h1, h2, h3, h4⟩ := ih (fc0 + 1) c hc
        refine ⟨h1, h2, by omega, ?_⟩
        rw [h4]
        have hidx : c.current - fc0 - 1 = (c.current - (fc0 + 1) - 1) + 1 := by omega
        rw [hidx, List.getD_cons_succ]
    · simp only [expCalls, h, if_false, List.nil_append] at hc
      obtain ⟨h1, h2, h3, h4⟩ := ih (fc0 + 1) c hc
      refine ⟨h1, h2, by omega, ?_⟩
      rw [h4]
      have hidx : c.current - fc0 - 1 = (c.current - (fc0 + 1) - 1) + 1 := by omega
      rw [hidx, List.getD_cons_succ]

theorem runLoop_hits_zero_div :
    ∀ (outcomes : List FrameOutcome) (st : LoopSt),
      30 - st.frameCount % 30 ≤ outcomes.length →
      (∀ o ∈ outcomes.take (30 - st.frameCount % 30), o.isOk = true) →
      ∃ st', runLoop true 0 outcomes st = .failed .zeroDivisionError st' := by
  intro outcomes
  induction outcomes with
  | nil =>
    intro st hlen _
    exfalso
    have := Nat.mod_lt st.frameCount (show 0 < 30 by norm_num)
    simp only [List.length_nil] at hlen
    omega
  | cons o rest ih =>
    intro st hlen htake
    have hmod : st.frameCount % 30 < 30 := Nat.mod_lt _ (by norm_num)
    have hk : 30 - st.frameCount % 30 = (30 - st.frameCount % 30 - 1) + 1 := by omega
    have hcons : (o :: rest).take (30 - st.frameCount % 30) =
        o :: rest.take (30 - st.frameCount % 30 - 1) := by
      nth_rewrite 1 [hk]
      rw [List.take_succ_cons]
    have ho : o.isOk = true := htake o (by rw [hcons]; exact List.mem_cons_self _ _)
    cases o with
    | raise => simp [FrameOutcome.isOk] at ho
    | ok n t =>
      simp only [runLoop]
      split_ifs with h1
      · exact ⟨_, rfl⟩
      · have h30 : ¬ (st.frameCount + 1) % 30 = 0 := by simpa using h1
        apply ih
        · simp only [List.length_cons] at hlen
          show 30 - (st.frameCount + 1) % 30 ≤ rest.length
          omega
        · intro o' ho'
          apply htake
          rw [hcons]
          apply List.mem_cons_of_mem
          have hidx : 30 - st.frameCount % 30 - 1 = 30 - (st.frameCount + 1) % 30 := by
            omega
          rw [hidx]
          exact ho'

theorem process_video_ok_elim (inp : RunInput) (s : Stats)
    (h : (process_video inp).result = .ok s) :
    ∃ st, runLoop inp.hasCallback inp.totalFrames inp.frames initLoopSt = .done st ∧
      (process_video inp).loopSt = st ∧
      s.total_frames = st.frameCount ∧
      s.total_time = inp.totalTime ∧
      s.avg_fps = (if 0 < inp.totalTime then (st.frameCount : ℚ) / inp.totalTime else 0) ∧
      s.avg_persons = (if st.personCountStats = [] then 0
        else ((st.personCountStats.sum : ℕ) : ℚ) / ((st.personCountStats.length : ℕ) : ℚ)) ∧
      s.max_persons = pyMaxNat st.personCountStats ∧
      s.min_persons = pyMinNat st.personCountStats := by
  cases hcap : inp.capOpened with
  | false => simp [process_video, hcap] at h
  | true =>
    by_cases hfps : inp.fps = 0
    · simp [process_video, hcap, hfps] at h
    · cases hout : inp.outOpened with
      | false => simp [process_video, hcap, hfps, hout] at h
      | true =>
        cases hrun : runLoop inp.hasCallback inp.totalFrames inp.frames initLoopSt with
        | failed e st => simp [process_video, hcap, hfps, hout, hrun] at h
        | done st =>
          refine ⟨st, rfl, ?_, ?_⟩
          · simp [process_video, hcap, hfps, hout, hrun]
          · have hpv : process_video inp = ⟨.ok
                { total_frames := st.frameCount
                  total_time := inp.totalTime
                  avg_fps := if 0 < inp.totalTime then (st.frameCount : ℚ) / inp.totalTime else 0
                  avg_persons := if st.personCountStats = [] then 0
                    else ((st.personCountStats.sum : ℕ) : ℚ) / ((st.personCountStats.length : ℕ) : ℚ)
                  max_persons := pyMaxNat st.personCountStats
                  min_persons := pyMinNat st.personCountStats
                  video_resolution := toString inp.width ++ "x" ++ toString inp.height
                  output_path := inp.outputPath }, 1, 1, true, st⟩ := by
              simp [process_video, hcap, hfps, hout, hrun]
            rw [hpv] at h
            simp only [Except.ok.injEq] at h
            subst h
            exact ⟨rfl, rfl, rfl, rfl, rfl, rfl⟩

/-! ## Claims -/

/-- C7: label placement in `draw_detections`: when the box top `y1` is less
than `text_height + 10` the label anchor is placed below the box's top edge
(at `y1 + text_height + 10`, inside the box); when `y1` exceeds
`text_height + 10` it is placed above the box (at `y1 - 10`). -/
theorem draw_label_placement : ∀ (y1 th : ℤ), 0 ≤ th →
    (y1 < th + 10 → labelTextY y1 th = y1 + th + 10 ∧ y1 < labelTextY y1 th) ∧
    (th + 10 < y1 → labelTextY y1 th = y1 - 10 ∧ labelTextY y1 th < y1) := by
  intro y1 th hth
  unfold labelTextY
  constructor
  · intro h
    have hc : ¬ (y1 - 10 > th) := by omega
    rw [if_neg hc]
    exact ⟨rfl, by omega⟩
  · intro h
    have hc : y1 - 10 > th := by omega
    rw [if_pos hc]
    exact ⟨rfl, by omega⟩

/-- Witness for C7 at `y1 = 5, th = 3` (below) and `y1 = 20, th = 3` (above). -/
theorem draw_label_placement_witness :
    labelTextY 5 3 = 18 ∧ labelTextY 20 3 = 10 :=
  ⟨((draw_label_placement 5 3 (by norm_num)).1 (by norm_num)).1.trans (by norm_num),
   ((draw_label_placement 20 3 (by norm_num)).2 (by norm_num)).1.trans (by norm_num)⟩

/-- C8: `draw_detections` is pure: the input frame buffer is left unchanged
(every drawing call targets the copy), and two calls with the same frame and
the same detection list return the same buffers. -/
theorem draw_detections_pure : ∀ (Frame : Type) (api : DrawApi Frame)
    (f₁ f₂ : Frame) (d₁ d₂ : List Detection) (lt : ℤ) (fs : ℚ),
    (draw_detections api f₁ d₁ lt fs).input = f₁ ∧
    (f₁ = f₂ → d₁ = d₂ →
      draw_detections api f₁ d₁ lt fs = draw_detections api f₂ d₂ lt fs) := by
  intro Frame api f₁ f₂ d₁ d₂ lt fs
  refine ⟨?_, ?_⟩
  · exact draw_foldl_input api lt fs d₁ ⟨f₁, f₁⟩
  · intro h1 h2
    rw [h1, h2]

/-- Witness for C8 on an integer-valued frame model. -/
theorem draw_detections_pure_witness :
    (draw_detections sampleApi (0 : ℤ) sampleDets 2 (3 / 5)).input = 0 ∧
    draw_detections sampleApi (0 : ℤ) sampleDets 2 (3 / 5) =
      draw_detections sampleApi (0 : ℤ) sampleDets 2 (3 / 5) :=
  ⟨(draw_detections_pure ℤ sampleApi 0 0 sampleDets sampleDets 2 (3 / 5)).1,
   (draw_detections_pure ℤ sampleApi 0 0 sampleDets sampleDets 2 (3 / 5)).2 rfl rfl⟩

/-- C6 counterexample: the model box `(0.2, 0, 0.8, 1)` passes the float
validity check but truncates to the stored box `(0, 0, 0, 1)`, so
`detect_persons` returns a Detection whose stored coordinates violate
`x2 > x1`. -/
theorem detect_persons_strict_box_cex :
    ∃ d, d ∈ detect_persons fracBoxResults ∧ ¬ d.x1 < d.x2 := by
  have hdp : detect_persons fracBoxResults = [⟨0, 0, 0, 1, 9 / 10, "person", 0⟩] := by
    norm_num [fracBoxResults, detect_persons, List.filterMap_cons, detectBox, pyInt]
  exact ⟨⟨0, 0, 0, 1, 9 / 10, "person", 0⟩,
    by rw [hdp]; exact List.mem_cons_self _ _, by decide⟩

/-- C6 (amended): every Detection returned by `detect_persons` satisfies
`x2 ≥ x1` and `y2 ≥ y1` in the stored integer coordinates — the strict
inequalities hold only for the raw float coordinates before `int(...)`
truncation — and carries the model's confidence unchanged, hence in `[0,1]`
whenever the model's scores are. -/
theorem detect_persons_box_bounds :
    ∀ (results : List (Option (List RawBox))),
      (∀ obs ∈ results, ∀ b ∈ obs.getD [], 0 ≤ b.conf ∧ b.conf ≤ 1) →
      ∀ d ∈ detect_persons results,
        d.x1 ≤ d.x2 ∧ d.y1 ≤ d.y2 ∧ 0 ≤ d.confidence ∧ d.confidence ≤ 1 := by
  intro results
  induction results with
  | nil => intro _ d hd; simp [detect_persons] at hd
  | cons obs rest ih =>
    intro hconf d hd
    cases obs with
    | none =>
      exact ih (fun o ho b hb => hconf o (List.mem_cons_of_mem _ ho) b hb) d
        (by simpa [detect_persons] using hd)
    | some boxes =>
      simp only [detect_persons] at hd
      rcases List.mem_append.mp hd with hd1 | hd2
      · by_cases hlen : boxes.length = 0
        · rw [if_pos hlen] at hd1; cases hd1
        · rw [if_neg hlen] at hd1
          obtain ⟨b, hb, hdb⟩ := List.mem_filterMap.mp hd1
          unfold detectBox at hdb
          by_cases hvalid : b.x1 < b.x2 ∧ b.y1 < b.y2
          · rw [if_pos hvalid] at hdb
            injection hdb with hdb
            subst hdb
            have hc := hconf (some boxes) (List.mem_cons_self _ _) b (by simpa using hb)
            exact ⟨pyInt_mono (le_of_lt hvalid.1), pyInt_mono (le_of_lt hvalid.2),
              hc.1, hc.2⟩
          · rw [if_neg hvalid] at hdb; cases hdb
      · exact ih (fun o ho b hb => hconf o (List.mem_cons_of_mem _ ho) b hb) d hd2

/-- Witness for C6 on a box with corners `(0, 0, 2.5, 3)` and confidence 0.5. -/
theorem detect_persons_box_bounds_witness :
    wideBoxDet.x1 ≤ wideBoxDet.x2 ∧ wideBoxDet.y1 ≤ wideBoxDet.y2 ∧
    0 ≤ wideBoxDet.confidence ∧ wideBoxDet.confidence ≤ 1 :=
  detect_persons_box_bounds wideBoxResults (by norm_num [wideBoxResults])
    wideBoxDet (by
      have hdp : detect_persons wideBoxResults = [wideBoxDet] := by
        norm_num [wideBoxResults, wideBoxDet, detect_persons, List.filterMap_cons,
          detectBox, pyInt]
      rw [hdp]
      exact List.mem_cons_self _ _)

/-- C9: when the decoder metadata reports `fps == 0`, `process_video` raises
`ZeroDivisionError` at the duration print, before the encoder is created and
before any frame is read or written. -/
theorem process_video_zero_fps : ∀ (inp : RunInput),
    inp.capOpened = true → inp.fps = 0 →
    (process_video inp).result = .error .zeroDivisionError ∧
    (process_video inp).encoderCreated = false ∧
    (process_video inp).loopSt.frameCount = 0 ∧
    (process_video inp).loopSt.framesWritten = 0 := by
  intro inp hcap hfps
  simp [process_video, hcap, hfps, initLoopSt]

/-- Witness for C9 on a concrete input whose metadata fps is 0. -/
theorem process_video_zero_fps_witness :
    (process_video zeroFpsInput).result = .error .zeroDivisionError ∧
    (process_video zeroFpsInput).encoderCreated = false ∧
    (process_video zeroFpsInput).loopSt.frameCount = 0 ∧
    (process_video zeroFpsInput).loopSt.framesWritten = 0 :=
  process_video_zero_fps zeroFpsInput rfl rfl

/-- C1 counterexample: a run whose second frame raises inside the loop body
propagates the exception with neither stream handle released, refuting
"both stream handles are released exactly once ... whether the loop ends by
decoder exhaustion or by an exception raised inside the loop body". -/
theorem process_video_release_cex :
    (process_video raisingRunInput).result = .error .frameError ∧
    (process_video raisingRunInput).capReleaseCount = 0 ∧
    (process_video raisingRunInput).outReleaseCount = 0 :=
  ⟨rfl, rfl, rfl⟩

/-- C1 (amended): each stream handle is released exactly once when and only
when `process_video` returns normally; on any raised exception (decoder or
encoder failing to open, zero fps, or a loop-body failure) neither handle is
released and the exception propagates to the caller. -/
theorem process_video_release_iff_success : ∀ (inp : RunInput),
    (process_video inp).capReleaseCount =
      (if resultOk (process_video inp).result then 1 else 0) ∧
    (process_video inp).outReleaseCount =
      (if resultOk (process_video inp).result then 1 else 0) := by
  intro inp
  cases hcap : inp.capOpened with
  | false => simp [process_video, hcap, resultOk]
  | true =>
    by_cases hfps : inp.fps = 0
    · simp [process_video, hcap, hfps, resultOk]
    · cases hout : inp.outOpened with
      | false => simp [process_video, hcap, hfps, hout, resultOk]
      | true =>
        cases hrun : runLoop inp.hasCallback inp.totalFrames inp.frames initLoopSt with
        | failed e st => simp [process_video, hcap, hfps, hout, hrun, resultOk]
        | done st => simp [process_video, hcap, hfps, hout, hrun, resultOk]

/-- C4: a run whose decoder yields zero frames returns the all-zero summary
with no division by zero anywhere: `total_frames`, `avg_persons`,
`min_persons`, `max_persons` and `avg_fps` are all 0 (in particular
`avg_fps = 0` when the elapsed time is 0). -/
theorem process_video_zero_frames : ∀ (inp : RunInput),
    inp.capOpened = true → inp.fps ≠ 0 → inp.outOpened = true → inp.frames = [] →
    (process_video inp).result = .ok
      { total_frames := 0
        total_time := inp.totalTime
        avg_fps := 0
        avg_persons := 0
        max_persons := 0
        min_persons := 0
        video_resolution := toString inp.width ++ "x" ++ toString inp.height
        output_path := inp.outputPath } := by
  intro inp hcap hfps hout hframes
  have hrun : runLoop inp.hasCallback inp.totalFrames inp.frames
      ⟨0, [], [], 0, []⟩ = .done ⟨0, [], [], 0, []⟩ := by rw [hframes]; rfl
  simp [process_video, hcap, hfps, hout, initLoopSt, hrun, pyMaxNat, pyMinNat]

/-- Witness for C4 on a concrete zero-frame input. -/
theorem process_video_zero_frames_witness :
    (process_video emptyRunInput).result = .ok
      { total_frames := 0, total_time := 7, avg_fps := 0, avg_persons := 0,
        max_persons := 0, min_persons := 0, video_resolution := "2x2",
        output_path := "out.mp4" } :=
  process_video_zero_frames emptyRunInput rfl (by decide) rfl rfl

/-- C2: at every loop boundary the frame counter, the length of the
detection-count sequence and the number of frames written coincide (each
iteration preserves the equalities), and a successful run over `n` decoded
frames writes exactly `n` frames and records exactly `n` detection counts. -/
theorem process_video_frame_count_invariant :
    (∀ (cb : Bool) (tf : ℤ) (o : FrameOutcome) (st st' : LoopSt),
        st.frameCount = st.personCountStats.length →
        st.personCountStats.length = st.framesWritten →
        runLoop cb tf [o] st = .done st' →
        st'.frameCount = st'.personCountStats.length ∧
        st'.personCountStats.length = st'.framesWritten) ∧
    (∀ (inp : RunInput) (s : Stats),
        (process_video inp).result = .ok s →
        s.total_frames = inp.frames.length ∧
        (process_video inp).loopSt.personCountStats.length = inp.frames.length ∧
        (process_video inp).loopSt.framesWritten = inp.frames.length ∧
        (process_video inp).loopSt.frameCount = inp.frames.length) := by
  constructor
  · intro cb tf o st st' h1 h2 hrun
    obtain ⟨e1, e2, e3, e4, _, hlen⟩ := runLoop_done_spec cb tf [o] st st' hrun
    constructor
    · rw [e1, e2]
      simp [List.length_append, List.length_map, hlen, h1]
    · rw [e2, e4]
      simp [List.length_append, List.length_map, hlen, h2]
  · intro inp s h
    obtain ⟨st, hrun, hlp, htf, _⟩ := process_video_ok_elim inp s h
    obtain ⟨e1, e2, e3, e4, _, hlen⟩ := runLoop_done_spec _ _ _ _ _ hrun
    refine ⟨?_, ?_, ?_, ?_⟩
    · rw [htf, e1]; simp [initLoopSt]
    · rw [hlp, e2]; simp [initLoopSt, hlen]
    · rw [hlp, e4]; simp [initLoopSt]
    · rw [hlp, e1]; simp [initLoopSt]

/-- Witness for C2: one preserved iteration, and a full two-frame run. -/
theorem process_video_frame_count_invariant_witness :
    (((⟨1, [3], [1], 1, []⟩ : LoopSt).frameCount =
        (⟨1, [3], [1], 1, []⟩ : LoopSt).personCountStats.length ∧
      (⟨1, [3], [1], 1, []⟩ : LoopSt).personCountStats.length =
        (⟨1, [3], [1], 1, []⟩ : LoopSt).framesWritten) ∧
     (sampleOkStats.total_frames = 2 ∧
      (process_video sampleRunInput).loopSt.personCountStats.length = 2 ∧
      (process_video sampleRunInput).loopSt.framesWritten = 2 ∧
      (process_video sampleRunInput).loopSt.frameCount = 2)) := by
  constructor
  · exact process_video_frame_count_invariant.1 false 10 (.ok 3 1) initLoopSt
      ⟨1, [3], [1], 1, []⟩ rfl rfl rfl
  · exact process_video_frame_count_invariant.2 sampleRunInput sampleOkStats rfl

/-- C5: for any successful run over at least one frame the summary satisfies
`min_persons ≤ avg_persons ≤ max_persons`, and `avg_persons` is the
arithmetic mean of the recorded per-frame detection counts. -/
theorem process_video_person_stats_bounds :
    ∀ (inp : RunInput) (s : Stats),
      (process_video inp).result = .ok s → inp.frames ≠ [] →
      (s.min_persons : ℚ) ≤ s.avg_persons ∧
      s.avg_persons ≤ (s.max_persons : ℚ) ∧
      s.avg_persons =
        (((process_video inp).loopSt.personCountStats.sum : ℕ) : ℚ) /
          (((process_video inp).loopSt.personCountStats.length : ℕ) : ℚ) := by
  intro inp s h hne
  obtain ⟨st, hrun, hlp, htf, htt, hfps, havg, hmax, hmin⟩ := process_video_ok_elim inp s h
  obtain ⟨e1, e2, e3, e4, e5, hlen⟩ := runLoop_done_spec _ _ _ _ _ hrun
  have hstats_len : st.personCountStats.length = inp.frames.length := by
    rw [e2]; simp [initLoopSt, hlen]
  have hne' : st.personCountStats ≠ [] := by
    intro hnil
    rw [hnil] at hstats_len
    exact hne (List.length_eq_zero.mp hstats_len.symm)
  have hpos : 0 < (st.personCountStats.length : ℚ) := by
    have : 0 < st.personCountStats.length := List.length_pos.mpr hne'
    exact_mod_cast this
  rw [havg, if_neg hne', hlp]
  refine ⟨?_, ?_, rfl⟩
  · rw [hmin, le_div_iff₀ hpos]
    have hnat : st.personCountStats.length * pyMinNat st.personCountStats ≤
        st.personCountStats.sum :=
      length_mul_le_sum _ _ fun x hx => pyMinNat_le_mem hx
    calc (pyMinNat st.personCountStats : ℚ) * (st.personCountStats.length : ℚ)
        = ((st.personCountStats.length * pyMinNat st.personCountStats : ℕ) : ℚ) := by
          push_cast; ring
      _ ≤ ((st.personCountStats.sum : ℕ) : ℚ) := by exact_mod_cast hnat
  · rw [hmax, div_le_iff₀ hpos]
    have hnat : st.personCountStats.sum ≤
        st.personCountStats.length * pyMaxNat st.personCountStats :=
      sum_le_length_mul _ _ fun x hx => mem_le_pyMaxNat hx
    calc ((st.personCountStats.sum : ℕ) : ℚ)
        ≤ ((st.personCountStats.length * pyMaxNat st.personCountStats : ℕ) : ℚ) := by
          exact_mod_cast hnat
      _ = (pyMaxNat st.personCountStats : ℚ) * (st.personCountStats.length : ℚ) := by
          push_cast; ring

/-- Witness for C5 on a two-frame run with counts 1 and 0. -/
theorem process_video_person_stats_bounds_witness :
    (sampleOkStats.min_persons : ℚ) ≤ sampleOkStats.avg_persons ∧
    sampleOkStats.avg_persons ≤ (sampleOkStats.max_persons : ℚ) ∧
    sampleOkStats.avg_persons =
      (((process_video sampleRunInput).loopSt.personCountStats.sum : ℕ) : ℚ) /
        (((process_video sampleRunInput).loopSt.personCountStats.length : ℕ) : ℚ) :=
  process_video_person_stats_bounds sampleRunInput sampleOkStats rfl (by decide)

/-- C3: on a successful run with a progress callback supplied, the callback
is invoked exactly `⌊n/30⌋` times for `n` decoded frames, the `j`-th
invocation at frame index `30·(j+1)` (a multiple of 30, hence strictly
increasing), with `percent = 100·current/total_frames`, the metadata total,
and `fps = 1/frame_time` of that frame (0 for a non-positive time); with no
callback supplied the callback is never invoked. -/
theorem process_video_progress_callback_spec :
    ∀ (inp : RunInput) (s : Stats),
      (process_video inp).result = .ok s →
      (inp.hasCallback = true →
        (process_video inp).loopSt.callbackCalls.length = inp.frames.length / 30 ∧
        (∀ j, j < (process_video inp).loopSt.callbackCalls.length →
          (((process_video inp).loopSt.callbackCalls.getD j ⟨0, 0, 0, 0⟩).current =
            30 * (j + 1))) ∧
        (∀ c ∈ (process_video inp).loopSt.callbackCalls,
          c.total = inp.totalFrames ∧
          c.percent = 100 * (c.current : ℚ) / (inp.totalFrames : ℚ) ∧
          c.fps = instFps
            ((process_video inp).loopSt.processingTimes.getD (c.current - 1) 0))) ∧
      (inp.hasCallback = false →
        (process_video inp).loopSt.callbackCalls = []) := by
  intro inp s h
  obtain ⟨st, hrun, hlp, _⟩ := process_video_ok_elim inp s h
  obtain ⟨e1, e2, e3, e4, e5, hlen⟩ := runLoop_done_spec _ _ _ _ _ hrun
  rw [hlp]
  constructor
  · intro hcb
    have hcalls : st.callbackCalls = expCalls inp.totalFrames 0 (okPairs inp.frames) := by
      rw [e5, hcb]
      simp [initLoopSt]
    have htimes : st.processingTimes = (okPairs inp.frames).map Prod.snd := by
      rw [e3]
      simp [initLoopSt]
    refine ⟨?_, ?_, ?_⟩
    · rw [hcalls, expCalls_length]
      simp [hlen]
    · intro j hj
      rw [hcalls] at hj ⊢
      have := expCalls_current inp.totalFrames (okPairs inp.frames) 0 j hj
      simpa using this
    · intro c hc
      rw [hcalls] at hc
      obtain ⟨h1, h2, h3, h4⟩ := expCalls_mem inp.totalFrames (okPairs inp.frames) 0 c hc
      refine ⟨h1, ?_, ?_⟩
      · rw [h2]; ring
      · rw [htimes, map_snd_getD]
        simpa using h4
  · intro hcb
    rw [e5, hcb]
    simp [initLoopSt]

/-- Witness for C3: a 31-frame run with `total_frames = 60` invokes the
callback exactly once, at frame 30. -/
theorem process_video_progress_callback_spec_witness :
    (process_video sampleCbInput).loopSt.callbackCalls.length = 1 ∧
    ((process_video sampleCbInput).loopSt.callbackCalls.getD 0 ⟨0, 0, 0, 0⟩).current = 30 := by
  have h := (process_video_progress_callback_spec sampleCbInput sampleCbStats rfl).1 rfl
  have hlen1 : (process_video sampleCbInput).loopSt.callbackCalls.length = 1 := by
    rw [h.1]
    rfl
  refine ⟨hlen1, ?_⟩
  have h2 := h.2.1 0 (by rw [hlen1]; norm_num)
  simpa using h2

/-- C10: with a callback supplied and a metadata total frame count of zero,
a run whose decoder yields at least 30 frames (the first 30 completing
normally) aborts with `ZeroDivisionError` in the percent computation. -/
theorem process_video_zero_total_frames_div :
    ∀ (inp : RunInput),
      inp.capOpened = true → inp.fps ≠ 0 → inp.outOpened = true →
      inp.hasCallback = true → inp.totalFrames = 0 →
      30 ≤ inp.frames.length →
      (∀ o ∈ inp.frames.take 30, o.isOk = true) →
      (process_video inp).result = .error .zeroDivisionError := by
  intro inp hcap hfps hout hcb htf hlen htake
  obtain ⟨st', hrun⟩ := runLoop_hits_zero_div inp.frames initLoopSt
    (by simpa [initLoopSt] using hlen) (by simpa [initLoopSt] using htake)
  have hrun' : runLoop inp.hasCallback inp.totalFrames inp.frames initLoopSt =
      .failed .zeroDivisionError st' := by
    rw [hcb, htf]
    exact hrun
  simp [process_video, hcap, hfps, hout, hrun']

/-- Witness for C10: 30 normally-processed frames with `total_frames = 0`
and a callback abort with `ZeroDivisionError`. -/
theorem process_video_zero_total_frames_div_witness :
    (process_video zeroTfInput).result = .error .zeroDivisionError :=
  process_video_zero_total_frames_div zeroTfInput rfl (by decide) rfl rfl rfl
    (by decide) (by decide)

end PersonDetection
